import Mathlib

/-!
# ThumbForge: verification of the video-analysis / thumbnail-generation pipeline

Shallow embedding of the TypeScript sources:
* `video-analyzer` (transcript extraction with a four-source fallback chain,
  video-id extraction, video analysis),
* `openrouter` client (image-response normalization),
* `face-analyzer` (face description with graceful parse-failure degradation)
  and its HTTP route,
* `thumbnail-generator` (sequential per-concept generation with per-item
  failure skipping).

Network calls, the transcript library, the local command-line tool and the
LLM completions are modelled as explicit environments/oracles; everything
the repository's own code computes (string cleaning, pattern matching,
control flow, response-shape normalization) is embedded faithfully.
Strings are modelled by Lean `String`/`List Char`; the JavaScript notion of
string truthiness is `≠ ""`.
-/

namespace ThumbForge

/-! ## Generic character-list machinery (regex-free model of the literal
pattern matching the source performs) -/

/-- Character class `[a-zA-Z0-9_-]` used by all four video-id patterns. -/
def isIdChar (c : Char) : Bool :=
  ('a' ≤ c && c ≤ 'z') || ('A' ≤ c && c ≤ 'Z') || ('0' ≤ c && c ≤ '9') ||
    c = '_' || c = '-'

/-- If `pat` is a literal leading pattern of `cs`, return the remainder. -/
def dropPat : List Char → List Char → Option (List Char)
  | [], cs => some cs
  | _ :: _, [] => none
  | p :: ps, c :: cs => if p = c then dropPat ps cs else none

/-- Take exactly `n` identifier characters from the front of a list
(models the regex quantifier `{11}` on the id character class). -/
def grabId : Nat → List Char → Option (List Char)
  | 0, _ => some []
  | _ + 1, [] => none
  | n + 1, c :: cs =>
    if isIdChar c then (grabId n cs).map (fun l => c :: l) else none

/-- Leftmost search for `pat` followed by exactly 11 id characters; returns
the 11 captured characters.  Models `url.match(/(?:PAT)([a-zA-Z0-9_-]{11})/)`:
the regex engine tries each start position from the left, and at a position
where the literal matches but fewer than 11 class characters follow, it moves
on to the next start position. -/
def scan (pat : List Char) : List Char → Option (List Char)
  | [] => none
  | c :: cs =>
    match dropPat pat (c :: cs) with
    | some rest =>
      match grabId 11 rest with
      | some found => some found
      | none => scan pat cs
    | none => scan pat cs

theorem dropPat_append (p r : List Char) : dropPat p (p ++ r) = some r := by
  induction p with
  | nil => rfl
  | cons c cs ih => simp [dropPat, ih]

theorem dropPat_length {p cs r : List Char} (h : dropPat p cs = some r) :
    cs.length = p.length + r.length := by
  induction p generalizing cs with
  | nil => simp [dropPat] at h; simp [h]
  | cons c ps ih =>
    cases cs with
    | nil => simp [dropPat] at h
    | cons d ds =>
      simp only [dropPat] at h
      split at h
      · have := ih h
        simp [this]; omega
      · exact absurd h (by simp)

theorem dropPat_none_of_short {p cs : List Char} (h : cs.length < p.length) :
    dropPat p cs = none := by
  cases hd : dropPat p cs with
  | none => rfl
  | some r => have := dropPat_length hd; omega

theorem dropPat_mem {p cs r : List Char} (h : dropPat p cs = some r) :
    ∀ c ∈ p, c ∈ cs := by
  induction p generalizing cs with
  | nil => intro c hc; simp at hc
  | cons q ps ih =>
    cases cs with
    | nil => simp [dropPat] at h
    | cons d ds =>
      simp only [dropPat] at h
      split at h
      · rename_i heq
        intro c hc
        rcases List.mem_cons.mp hc with h1 | h1
        · subst h1; exact heq ▸ List.mem_cons_self _ _
        · exact List.mem_cons_of_mem _ (ih h c h1)
      · exact absurd h (by simp)

theorem scan_cons_none {pat : List Char} {c : Char} {cs : List Char}
    (h : dropPat pat (c :: cs) = none) : scan pat (c :: cs) = scan pat cs := by
  simp [scan, h]

theorem scan_cons_found {pat : List Char} {c : Char} {cs rest found : List Char}
    (h : dropPat pat (c :: cs) = some rest) (hg : grabId 11 rest = some found) :
    scan pat (c :: cs) = some found := by
  simp [scan, h, hg]

theorem scan_short {pat cs : List Char} (h : cs.length < pat.length) :
    scan pat cs = none := by
  induction cs with
  | nil => cases pat with
    | nil => simp at h
    | cons p ps => rfl
  | cons c cs ih =>
    rw [scan_cons_none (dropPat_none_of_short h)]
    exact ih (by simp at h ⊢; omega)

theorem scan_idchar_none {pat cs : List Char} {b : Char}
    (hb : b ∈ pat) (hbad : isIdChar b = false)
    (hcs : ∀ c ∈ cs, isIdChar c = true) : scan pat cs = none := by
  induction cs with
  | nil => cases pat with
    | nil => simp at hb
    | cons p ps => rfl
  | cons c cs ih =>
    have hnone : dropPat pat (c :: cs) = none := by
      cases hd : dropPat pat (c :: cs) with
      | none => rfl
      | some r =>
        have := hcs b (dropPat_mem hd b hb)
        rw [hbad] at this
        exact absurd this (by simp)
    rw [scan_cons_none hnone]
    exact ih (fun c hc => hcs c (List.mem_cons_of_mem _ hc))

/-- Sufficient decidable condition for a pattern never to match starting
inside the concrete region `xs`: every nonempty suffix of `xs` disagrees
with `pat` at some position inside the zipped region. -/
def stepClear (pat xs : List Char) : Bool :=
  xs.tails.all (fun t => t.isEmpty || (pat.zip t).any (fun pc => pc.1 ≠ pc.2))

theorem dropPat_none_of_zip_mismatch {pat t : List Char}
    (h : (pat.zip t).any (fun pc => pc.1 ≠ pc.2) = true) (rest : List Char) :
    dropPat pat (t ++ rest) = none := by
  induction pat generalizing t with
  | nil => simp at h
  | cons p ps ih =>
    cases t with
    | nil => simp at h
    | cons c cs =>
      simp only [List.zip_cons_cons, List.any_cons] at h
      simp only [List.cons_append, dropPat]
      rcases Bool.or_eq_true_iff.mp h with h1 | h1
      · have : ¬ p = c := by simpa using h1
        simp [this]
      · split
        · exact ih h1
        · rfl

theorem scan_append_none {pat xs : List Char} (h : stepClear pat xs = true)
    (cs : List Char) : scan pat (xs ++ cs) = scan pat cs := by
  induction xs with
  | nil => rfl
  | cons x xs ih =>
    have hall := h
    unfold stepClear at hall
    rw [List.all_eq_true] at hall
    have hx := hall (x :: xs) (by
      simp [List.mem_tails])
    have hmis : (pat.zip (x :: xs)).any (fun pc => pc.1 ≠ pc.2) = true := by
      simpa using hx
    have hstep : dropPat pat ((x :: xs) ++ cs) = none :=
      dropPat_none_of_zip_mismatch hmis cs
    rw [List.cons_append] at hstep
    rw [List.cons_append, scan_cons_none hstep]
    have htail : stepClear pat xs = true := by
      unfold stepClear at h ⊢
      rw [List.all_eq_true] at h ⊢
      intro t ht
      exact h t (by
        rw [List.mem_tails] at ht ⊢
        exact ht.trans (List.suffix_cons x xs))
    exact ih htail

theorem grabId_exact {l : List Char} (suf : List Char) (hlen : l.length = 11)
    (hall : ∀ c ∈ l, isIdChar c = true) : grabId 11 (l ++ suf) = some l := by
  have general : ∀ n (l : List Char), l.length = n →
      (∀ c ∈ l, isIdChar c = true) → grabId n (l ++ suf) = some l := by
    intro n
    induction n with
    | zero => intro l hl _; cases l with
      | nil => rfl
      | cons c cs => simp at hl
    | succ m ih =>
      intro l hl hal
      cases l with
      | nil => simp at hl
      | cons c cs =>
        simp only [List.cons_append, grabId]
        rw [hal c (List.mem_cons_self _ _)]
        simp only [if_true]
        have := ih cs (by simpa using hl)
          (fun d hd => hal d (List.mem_cons_of_mem _ hd))
        simp only [List.append_eq] at this ⊢
        rw [this]
        rfl
  exact general 11 l hlen hall

/-! ## String replacement machinery (model of JavaScript
`String.prototype.replace` with a `g`-flagged literal-ish pattern: leftmost
scan, no rescanning of replaced output) -/

/-- Like `dropPat` but with a custom character comparison, so the same
scanner also models the case-insensitive `/\[Music\]/gi`. -/
def dropPatBy (eqf : Char → Char → Bool) : List Char → List Char → Option (List Char)
  | [], cs => some cs
  | _ :: _, [] => none
  | p :: ps, c :: cs => if eqf p c then dropPatBy eqf ps cs else none

theorem dropPatBy_length {eqf : Char → Char → Bool} {p cs r : List Char}
    (h : dropPatBy eqf p cs = some r) : cs.length = p.length + r.length := by
  induction p generalizing cs with
  | nil => simp [dropPatBy] at h; simp [h]
  | cons c ps ih =>
    cases cs with
    | nil => simp [dropPatBy] at h
    | cons d ds =>
      simp only [dropPatBy] at h
      split at h
      · have := ih h
        simp [this]; omega
      · exact absurd h (by simp)

/-- Replace every occurrence of the nonempty pattern `p :: ps` by `rep`,
scanning left to right and continuing after each replacement.  The `Nat`
argument is recursion fuel keeping the definition structurally recursive
(hence kernel-computable); every call site passes the input length, which
always suffices since each step consumes at least one character, so the
fuel-exhausted branch is unreachable. -/
def replaceAllBy (eqf : Char → Char → Bool) (p : Char) (ps rep : List Char) :
    Nat → List Char → List Char
  | _, [] => []
  | 0, l => l
  | fuel + 1, c :: cs =>
    match dropPatBy eqf (p :: ps) (c :: cs) with
    | some rest => rep ++ replaceAllBy eqf p ps rep fuel rest
    | none => c :: replaceAllBy eqf p ps rep fuel cs

/-- `s.replace(/pat/g, rep)` for a literal pattern. -/
def replaceStr (pat rep s : String) : String :=
  match pat.data with
  | [] => s
  | p :: ps => ⟨replaceAllBy (fun a b => a == b) p ps rep.data s.data.length s.data⟩

/-- `s.replace(/pat/gi, rep)` for a literal pattern, ASCII case-insensitive. -/
def replaceStrCI (pat rep s : String) : String :=
  match pat.data with
  | [] => s
  | p :: ps =>
    ⟨replaceAllBy (fun a b => a.toLower == b.toLower) p ps rep.data s.data.length s.data⟩

/-- Whitespace for the purposes of `trim` / `\s`. -/
def isWs (c : Char) : Bool := c = ' ' || c = '\t' || c = '\n' || c = '\r'

def trimChars (l : List Char) : List Char :=
  ((l.dropWhile isWs).reverse.dropWhile isWs).reverse

/-- JavaScript `s.trim()`. -/
def trimJs (s : String) : String := ⟨trimChars s.data⟩

/-- Collapse each maximal whitespace run into a single space
(`.replace(/\s+/g, " ")`); the flag records whether the previous character
was part of a run already emitted. -/
def squashAux : Bool → List Char → List Char
  | _, [] => []
  | prevWs, c :: cs =>
    if isWs c then
      if prevWs then squashAux true cs else ' ' :: squashAux true cs
    else c :: squashAux false cs

def squashWs (l : List Char) : List Char := squashAux false l

/-- Drop a single leading newline if present (the `\n?` of
`/```json\n?/g`). -/
def dropOneNl : List Char → List Char
  | '\n' :: cs => cs
  | cs => cs

theorem dropOneNl_length (l : List Char) : (dropOneNl l).length ≤ l.length := by
  cases l with
  | nil => simp [dropOneNl]
  | cons c cs =>
    simp only [dropOneNl]
    split
    · rename_i heq
      injection heq with h1 h2
      subst h2
      simp
    · simp

theorem dropWhileWs_length (l : List Char) : (l.dropWhile isWs).length ≤ l.length := by
  induction l with
  | nil => simp
  | cons c cs ih =>
    rw [List.dropWhile_cons]
    split
    · exact ih.trans (by simp)
    · simp

/-- Remove every occurrence of the nonempty literal `p :: ps` together with
one optional following newline (`.replace(/PAT\n?/g, "")`).  Fuel as in
`replaceAllBy`. -/
def removePatNl (p : Char) (ps : List Char) : Nat → List Char → List Char
  | _, [] => []
  | 0, l => l
  | fuel + 1, c :: cs =>
    match dropPat (p :: ps) (c :: cs) with
    | some rest => removePatNl p ps fuel (dropOneNl rest)
    | none => c :: removePatNl p ps fuel cs

/-- Remove every occurrence of the nonempty literal `p :: ps` together with
all following whitespace (`.replace(/PAT\s*/g, "")`).  Fuel as in
`replaceAllBy`. -/
def removePatWs (p : Char) (ps : List Char) : Nat → List Char → List Char
  | _, [] => []
  | 0, l => l
  | fuel + 1, c :: cs =>
    match dropPat (p :: ps) (c :: cs) with
    | some rest => removePatWs p ps fuel (rest.dropWhile isWs)
    | none => c :: removePatWs p ps fuel cs

def removeNl (pat : String) (s : List Char) : List Char :=
  match pat.data with
  | [] => s
  | p :: ps => removePatNl p ps s.length s

def removeWs (pat : String) (s : List Char) : List Char :=
  match pat.data with
  | [] => s
  | p :: ps => removePatWs p ps s.length s

/-! ## `video-analyzer`: video-id extraction -/

def patWatch : List Char := "youtube.com/watch?v=".data
def patBe : List Char := "youtu.be/".data
def patEmbed : List Char := "youtube.com/embed/".data
def patShorts : List Char := "youtube.com/shorts/".data

/-- `extractVideoId`: tries the four URL patterns in order and returns the
first 11-character capture, or `none` (`null`) when no pattern matches. -/
def extractVideoId (url : String) : Option String :=
  match scan patWatch url.data with
  | some f => some ⟨f⟩
  | none =>
  match scan patBe url.data with
  | some f => some ⟨f⟩
  | none =>
  match scan patEmbed url.data with
  | some f => some ⟨f⟩
  | none =>
  match scan patShorts url.data with
  | some f => some ⟨f⟩
  | none => none

/-! ## `video-analyzer`: transcript extraction

The four transcript sources are external effects; a `TranscriptEnv` records,
for one hypothetical run, what each of them would deliver if invoked:
* `library`: the segment texts resolved by `YoutubeTranscript.fetchTranscript`
  (`none` = the promise rejected),
* `vtd`: the stdout of the local `vtd.js` command-line tool
  (`none` = spawn failure / timeout / nonzero exit),
* `api1`: the parsed JSON of a 2xx `youtube-transcript.io` response
  (`none` = network error, non-2xx, or unparseable body; absent JSON string
  fields are the empty string, matching JS falsiness),
* `api2`: the parsed JSON of a 2xx Supadata response; the inner `Option`
  is the `content` field, which may be a string or a segment array. -/

structure Api1Data where
  transcript : String := ""
  text : String := ""
deriving DecidableEq, Repr

inductive SupaContent
  | str (s : String)
  | arr (l : List String)
deriving DecidableEq, Repr

structure TranscriptEnv where
  library : Option (List String) := none
  vtd : Option String := none
  api1 : Option Api1Data := none
  api2 : Option (Option SupaContent) := none
deriving DecidableEq, Repr

inductive Source
  | library | vtd | api1 | api2
deriving DecidableEq, Repr

inductive TranscriptError
  | invalidInput | noTranscriptAvailable
deriving DecidableEq, Repr

/-- The entity-decoding / artifact-removal / whitespace-normalization chain
applied to the library-sourced transcript (lines 52–62 of the source). -/
def cleanTranscript (s : String) : String :=
  let s1 := replaceStr "&amp;" "&" s
  let s2 := replaceStr "&#39;" "'" s1
  let s3 := replaceStr "&quot;" "\"" s2
  let s4 := replaceStr "&lt;" "<" s3
  let s5 := replaceStr "&gt;" ">" s4
  let s6 := replaceStr "[♪♪♪]" "" s5
  let s7 := replaceStr "♪" "" s6
  let s8 := replaceStrCI "[Music]" "" s7
  ⟨squashWs (trimChars s8.data)⟩

/-- Source (a), the body of the first `try` block: join the segment texts
with spaces, clean, and accept only if strictly longer than 20 characters. -/
def librarySource (env : TranscriptEnv) : Option String :=
  match env.library with
  | some segments =>
    if segments.length > 0 then
      if (cleanTranscript (String.intercalate " " segments)).length > 20 then
        some (cleanTranscript (String.intercalate " " segments))
      else none
    else none
  | none => none

/-- Source (b), the VTD shell-out: trim stdout and accept only nonempty
text strictly longer than 20 characters. -/
def vtdSource (env : TranscriptEnv) : Option String :=
  match env.vtd with
  | some stdout =>
    if trimJs stdout ≠ "" ∧ (trimJs stdout).length > 20 then some (trimJs stdout)
    else none
  | none => none

/-- Source (c), `youtube-transcript.io`: return `data.transcript || data.text`
whenever that JS expression is truthy — no length check. -/
def api1Source (env : TranscriptEnv) : Option String :=
  match env.api1 with
  | some d =>
    if d.transcript ≠ "" then some d.transcript
    else if d.text ≠ "" then some d.text
    else none
  | none => none

/-- Source (d), Supadata: return `data.content` (joined when it is a segment
array) whenever it is truthy — no length check, and an empty array is truthy
and yields the empty string. -/
def api2Source (env : TranscriptEnv) : Option String :=
  match env.api2 with
  | some (some (.str s)) => if s ≠ "" then some s else none
  | some (some (.arr l)) => some (String.intercalate " " l)
  | _ => none

/-- `extractTranscript`, instrumented with the list of sources invoked
(each `try` block that starts executing appends its source).  Mirrors the
straight-line fallthrough of the source: every failure is swallowed and the
next block runs. -/
def extractTranscriptT (env : TranscriptEnv) (youtubeUrl : String) :
    Except TranscriptError String × List Source :=
  match extractVideoId youtubeUrl with
  | none => (.error .invalidInput, [])
  | some _ =>
    match librarySource env with
    | some t => (.ok t, [.library])
    | none =>
      match vtdSource env with
      | some t => (.ok t, [.library, .vtd])
      | none =>
        match api1Source env with
        | some t => (.ok t, [.library, .vtd, .api1])
        | none =>
          match api2Source env with
          | some t => (.ok t, [.library, .vtd, .api1, .api2])
          | none => (.error .noTranscriptAvailable, [.library, .vtd, .api1, .api2])

def extractTranscript (env : TranscriptEnv) (youtubeUrl : String) :
    Except TranscriptError String :=
  (extractTranscriptT env youtubeUrl).1

/-! ## `video-analyzer`: analysis -/

structure ThumbnailConcept where
  description : String
  textOverlay : String
  mood : String
  visualStyle : String
  faceExpression : String
deriving DecidableEq, Repr

structure VideoAnalysis where
  title : String
  topic : String
  hook : String
  mood : String
  keyMoments : List String
  visualElements : List String
  textSuggestions : List String
  colorPalette : List String
  targetEmotion : String
  thumbnailConcepts : List ThumbnailConcept
deriving DecidableEq, Repr

inductive AnalysisError
  | noContentAvailable | analysisParseError
deriving DecidableEq, Repr

structure Metadata where
  title : String := ""
  author : String := ""
deriving DecidableEq, Repr

/-- Environment for `analyzeVideo`: the transcript environment, the metadata
the oEmbed fetch resolves to (`getVideoMetadata` never raises: it returns
empty strings on any failure), the text the completion call returns, and
`JSON.parse` on the cleaned completion modelled as an oracle producing a
`VideoAnalysis` on success. -/
structure AnalyzeEnv where
  tenv : TranscriptEnv
  metadata : Metadata
  completionResponse : String
  parseAnalysis : String → Option VideoAnalysis

/-- The transcript value after `extractTranscript(youtubeUrl).catch(() => "")`. -/
def resolvedTranscript (env : AnalyzeEnv) (youtubeUrl : String) : String :=
  match extractTranscript env.tenv youtubeUrl with
  | .ok t => t
  | .error _ => ""

/-- `result.replace(/```json\n?/g, "").replace(/```\n?/g, "").trim()`. -/
def cleanCompletion (s : String) : String :=
  trimJs ⟨removeNl "```" (removeNl "```json" s.data)⟩

/-- `analyzeVideo` (the part after the two parallel fetches are joined):
raise `NoContentAvailable` when both the resolved transcript and the title
are empty, otherwise request a completion and parse it, raising
`AnalysisParseError` on invalid JSON. -/
def analyzeVideo (env : AnalyzeEnv) (youtubeUrl : String) :
    Except AnalysisError VideoAnalysis :=
  if resolvedTranscript env youtubeUrl = "" ∧ env.metadata.title = "" then
    .error .noContentAvailable
  else
    match env.parseAnalysis (cleanCompletion env.completionResponse) with
    | some a => .ok a
    | none => .error .analysisParseError

/-! ## `openrouter`: image-response normalization

Embeds the `generateImage` response handling of the client variant that
supports both provider shapes: the side-channel `message.images` array
(Gemini-style) and inline `image_url` parts inside `message.content`
(Flux-style).  A part's `image_url?.url` is `none` when the field is absent;
JS truthiness of the url is `≠ ""`. -/

structure RPart where
  type : String
  text : Option String := none
  image_url : Option String := none
deriving DecidableEq, Repr

inductive ContentField
  | str (s : String)
  | parts (l : List RPart)
  | absent
deriving DecidableEq, Repr

structure RImage where
  image_url : Option String := none
deriving DecidableEq, Repr

structure RMessage where
  content : ContentField := .absent
  images : Option (List RImage) := none
deriving DecidableEq, Repr

structure RChoice where
  message : RMessage
deriving DecidableEq, Repr

structure RData where
  choices : List RChoice
deriving DecidableEq, Repr

inductive ImageError
  | noMessage | noImageReturned
deriving DecidableEq, Repr

/-- Regex word character (`\w`). -/
def isWordChar (c : Char) : Bool :=
  ('a' ≤ c && c ≤ 'z') || ('A' ≤ c && c ≤ 'Z') || ('0' ≤ c && c ≤ '9') || c = '_'

/-- `url.replace(/^data:image\/\w+;base64,/, "")`: anchored, single
replacement; the url is returned unchanged when the pattern does not match. -/
def stripDataUrl (u : String) : String :=
  match dropPat "data:image/".data u.data with
  | some r1 =>
    let w := r1.takeWhile isWordChar
    if w.isEmpty then u
    else
      match dropPat ";base64,".data (r1.dropWhile isWordChar) with
      | some r2 => ⟨r2⟩
      | none => u
  | none => u

/-- `typeof content === "string" ? content : Array.isArray(content) ?
content.find(p => p.type === "text")?.text : undefined`. -/
def contentText : ContentField → Option String
  | .str s => some s
  | .parts l =>
    match l.find? (fun p => p.type == "text") with
    | some p => p.text
    | none => none
  | .absent => none

/-- Predicate of `content.find(p => p.type === "image_url" && p.image_url?.url)`. -/
def isImagePart (p : RPart) : Bool :=
  p.type == "image_url" &&
    (match p.image_url with
     | some u => u != ""
     | none => false)

/-- Method 2: search the content parts for an inline data-URL image. -/
def imageFromContent (message : RMessage) : Except ImageError (String × Option String) :=
  match message.content with
  | .parts l =>
    match l.find? isImagePart with
    | some p =>
      match p.image_url with
      | some u =>
        .ok (stripDataUrl u,
          match l.find? (fun q => q.type == "text") with
          | some q => q.text
          | none => none)
      | none => .error .noImageReturned
    | none => .error .noImageReturned
  | _ => .error .noImageReturned

/-- The response-normalization tail of `generateImage`: Method 1 reads the
side-channel `message.images` array (only its first entry), with
`revisedPrompt := textContent || undefined`; on failure it falls through to
Method 2; if neither yields an image, `NoImageReturned` is raised. -/
def parseImageMessage (message : RMessage) : Except ImageError (String × Option String) :=
  match message.images with
  | some (img :: _) =>
    match img.image_url with
    | some u =>
      if u ≠ "" then
        .ok (stripDataUrl u,
          match contentText message.content with
          | some t => if t = "" then none else some t
          | none => none)
      else imageFromContent message
    | none => imageFromContent message
  | _ => imageFromContent message

/-- `generateImage` from `data.choices[0]?.message` on: a missing message is
its own error, before either shape is examined. -/
def parseImageResponse (data : RData) : Except ImageError (String × Option String) :=
  match data.choices with
  | [] => .error .noMessage
  | ch :: _ => parseImageMessage ch.message

/-! ## `face-analyzer` and its HTTP route -/

structure FaceAnalysis where
  description : String
  keyFeatures : List String
  ageRange : String
  genderPresentation : String
  photoCount : Nat
deriving DecidableEq, Repr

/-- The JSON object `JSON.parse` yields on the success path (optional fields
model absent keys). -/
structure ParsedFace where
  description : String
  keyFeatures : Option (List String) := none
  ageRange : Option String := none
  genderPresentation : Option String := none

inductive FaceError
  | invalidInput
deriving DecidableEq, Repr

structure FaceEnv where
  completionResponse : String
  parseFace : String → Option ParsedFace

/-- `response.replace(/```json\s*/g, "").replace(/```\s*/g, "").trim()`. -/
def cleanFaceCompletion (s : String) : String :=
  trimJs ⟨removeWs "```" (removeWs "```json" s.data)⟩

/-- `parsed.field || "unknown"`. -/
def orUnknown : Option String → String
  | some s => if s = "" then "unknown" else s
  | none => "unknown"

/-- `analyzeFace`, instrumented with whether the completion call was made.
Zero images raise `InvalidInput` before any request is built; a JSON parse
failure degrades to the raw trimmed response instead of raising. -/
def analyzeFaceT (faceImagesBase64 : List String) (env : FaceEnv) :
    Except FaceError FaceAnalysis × Bool :=
  if faceImagesBase64.length = 0 then
    (.error .invalidInput, false)
  else
    match env.parseFace (cleanFaceCompletion env.completionResponse) with
    | some parsed =>
      (.ok { description := parsed.description
             keyFeatures := parsed.keyFeatures.getD []
             ageRange := orUnknown parsed.ageRange
             genderPresentation := orUnknown parsed.genderPresentation
             photoCount := faceImagesBase64.length }, true)
    | none =>
      (.ok { description := trimJs env.completionResponse
             keyFeatures := []
             ageRange := "unknown"
             genderPresentation := "unknown"
             photoCount := faceImagesBase64.length }, true)

/-- The `faceImages` field of the request body: absent/falsy, present but
not an array, or an actual array. -/
inductive FaceImagesField
  | missing
  | notArray
  | arr (l : List String)

/-- The `POST /face-analyze` handler: returns the HTTP status and whether
`analyzeFace` was invoked. -/
def faceAnalyzeRoute (field : FaceImagesField) (env : FaceEnv) : Nat × Bool :=
  match field with
  | .missing => (400, false)
  | .notArray => (400, false)
  | .arr faceImages =>
    if faceImages.length = 0 then (400, false)
    else if faceImages.length > 5 then (400, false)
    else
      match analyzeFaceT faceImages env with
      | (.ok _, _) => (200, true)
      | (.error _, _) => (500, true)

/-! ## `thumbnail-generator` -/

structure GeneratedThumbnail where
  id : String
  imageBase64 : String
  concept : ThumbnailConcept
  textOverlay : String
  width : Nat
  height : Nat
deriving DecidableEq, Repr

structure GenOptions where
  faceImageBase64 : Option String := none
  faceDescription : Option String := none
  model : Option String := none
  count : Option Nat := none

inductive GenerateError
  | noThumbnailsGenerated
deriving DecidableEq, Repr

/-- Outcome oracle for the sequential `generateImage` calls: `gen i` is
`none` when the i-th call raises (caught, logged, skipped) and
`some (imageBase64, revisedPrompt)` when it succeeds. -/
abbrev GenOracle := Nat → Option (String × Option String)

/-- One pushed result item: `revisedPrompt || concept.description` replaces
the concept description (JS falsiness: an empty revised prompt falls back). -/
def mkThumbnail (now i : Nat) (concept : ThumbnailConcept)
    (imageBase64 : String) (revisedPrompt : Option String) : GeneratedThumbnail :=
  { id := "thumb-" ++ toString now ++ "-" ++ toString i
    imageBase64 := imageBase64
    concept := { concept with description :=
      match revisedPrompt with
      | some r => if r = "" then concept.description else r
      | none => concept.description }
    textOverlay := concept.textOverlay
    width := 1280
    height := 720 }

/-- `options.count || 4`: zero and absent both fall back to the default. -/
def effectiveCount (count : Option Nat) : Nat :=
  match count with
  | some n => if n = 0 then 4 else n
  | none => 4

/-- The sequential for-loop: each failed item is skipped, each success is
appended in order. -/
def genLoop (now : Nat) (gen : GenOracle) :
    List (Nat × ThumbnailConcept) → List GeneratedThumbnail
  | [] => []
  | (i, concept) :: rest =>
    match gen i with
    | some (img, revised) => mkThumbnail now i concept img revised :: genLoop now gen rest
    | none => genLoop now gen rest

/-- `generateThumbnails`, instrumented with the number of `generateImage`
calls made (`Date.now()` is the `now` parameter). -/
def generateThumbnailsT (now : Nat) (analysis : VideoAnalysis)
    (options : GenOptions) (gen : GenOracle) :
    Except GenerateError (List GeneratedThumbnail) × Nat :=
  let count := min (effectiveCount options.count) analysis.thumbnailConcepts.length
  let concepts := analysis.thumbnailConcepts.take count
  let results := genLoop now gen concepts.enum
  (if results.isEmpty then .error .noThumbnailsGenerated else .ok results,
   concepts.length)

def generateThumbnails (now : Nat) (analysis : VideoAnalysis)
    (options : GenOptions) (gen : GenOracle) :
    Except GenerateError (List GeneratedThumbnail) :=
  (generateThumbnailsT now analysis options gen).1

/-! ## Supporting lemmas: characterization of `scan` and `extractVideoId` -/

theorem grabId_eq (n : Nat) (l : List Char) :
    grabId n l =
      if (l.take n).length = n ∧ (l.take n).all isIdChar then some (l.take n)
      else none := by
  induction n generalizing l with
  | zero => simp [grabId]
  | succ m ih =>
    cases l with
    | nil => simp [grabId]
    | cons c cs =>
      simp only [grabId, List.take_succ_cons, List.length_cons, List.all_cons]
      by_cases hc : isIdChar c
      · rw [if_pos hc, ih]
        by_cases h1 : (cs.take m).length = m ∧ (cs.take m).all isIdChar
        · rw [if_pos h1, if_pos (by simp [hc, h1.1, h1.2])]
          rfl
        · rw [if_neg h1, if_neg (by
            intro hcontra
            exact h1 ⟨by omega, by simpa [hc] using hcontra.2⟩)]
          rfl
      · rw [if_neg hc, if_neg (by
          intro hcontra
          have := hcontra.2
          simp [hc] at this)]

/-- `pat` occurs at position `t` (a suffix) followed by at least 11 id
characters: the claim-side notion of a URL-shape match. -/
def matchesHere (pat : List Char) (t : List Char) : Bool :=
  match dropPat pat t with
  | some r => (r.take 11).length = 11 && (r.take 11).all isIdChar
  | none => false

/-- The pattern matches somewhere in `cs`. -/
def shapeMatch (pat : List Char) (cs : List Char) : Bool :=
  cs.tails.any (fun t => matchesHere pat t)

/-- A URL matches one of the four supported shapes. -/
def hasShape (url : String) : Bool :=
  shapeMatch patWatch url.data || shapeMatch patBe url.data ||
    shapeMatch patEmbed url.data || shapeMatch patShorts url.data

theorem scan_eq_none_iff (pat cs : List Char) :
    scan pat cs = none ↔ shapeMatch pat cs = false := by
  induction cs with
  | nil =>
    constructor
    · intro _
      cases pat with
      | nil => simp [shapeMatch, List.tails, matchesHere, dropPat]
      | cons p ps => simp [shapeMatch, List.tails, matchesHere, dropPat]
    · intro _; rfl
  | cons c cs ih =>
    rw [shapeMatch, List.tails_cons, List.any_cons]
    cases hd : dropPat pat (c :: cs) with
    | none =>
      rw [scan_cons_none hd]
      have hmh : matchesHere pat (c :: cs) = false := by
        simp [matchesHere, hd]
      rw [hmh, Bool.false_or]
      exact ih
    | some rest =>
      cases hg : grabId 11 rest with
      | some found =>
        have hscan : scan pat (c :: cs) = some found := scan_cons_found hd hg
        have hmh : matchesHere pat (c :: cs) = true := by
          rw [grabId_eq] at hg
          simp only [matchesHere, hd]
          by_cases hcond : (rest.take 11).length = 11 ∧ (rest.take 11).all isIdChar
          · simp [hcond.1, hcond.2]
          · rw [if_neg hcond] at hg; exact absurd hg (by simp)
        simp [hscan, hmh]
      | none =>
        have hscan : scan pat (c :: cs) = scan pat cs := by
          simp [scan, hd, hg]
        have hmh : matchesHere pat (c :: cs) = false := by
          rw [grabId_eq] at hg
          simp only [matchesHere, hd]
          by_cases hcond : (rest.take 11).length = 11 ∧ (rest.take 11).all isIdChar
          · rw [if_pos hcond] at hg; exact absurd hg (by simp)
          · by_cases h1 : (rest.take 11).length = 11
            · have h2 : (rest.take 11).all isIdChar = false := by
                cases hall : (rest.take 11).all isIdChar
                · rfl
                · exact absurd ⟨h1, hall⟩ hcond
              rw [h2, Bool.and_false]
            · rw [decide_eq_false h1, Bool.false_and]
        rw [hscan, hmh, Bool.false_or]
        exact ih

theorem scan_at_start {pat l : List Char} (hne : pat ≠ []) (hlen : l.length = 11)
    (hall : ∀ c ∈ l, isIdChar c = true) : scan pat (pat ++ l) = some l := by
  cases pat with
  | nil => exact absurd rfl hne
  | cons p ps =>
    rw [List.cons_append]
    have hdrop : dropPat (p :: ps) (p :: (ps ++ l)) = some l := by
      rw [← List.cons_append]
      exact dropPat_append _ _
    have hgrab : grabId 11 l = some l := by
      have := grabId_exact [] hlen hall
      simpa using this
    exact scan_cons_found hdrop hgrab

/-! ## Claim theorems -/

/-- **C2.** For each of the four supported URL shapes carrying an
11-character identifier over `[a-zA-Z0-9_-]`, `extractVideoId` returns
exactly that identifier; for a URL in which none of the four shapes occurs,
`extractVideoId` returns `none`, and `extractTranscript` then fails with
`InvalidInput` before any source is tried. -/
theorem claim_C2 :
    (∀ id : String, id.length = 11 → (∀ c ∈ id.data, isIdChar c = true) →
      extractVideoId ("https://www.youtube.com/watch?v=" ++ id) = some id ∧
      extractVideoId ("https://youtu.be/" ++ id) = some id ∧
      extractVideoId ("https://www.youtube.com/embed/" ++ id) = some id ∧
      extractVideoId ("https://www.youtube.com/shorts/" ++ id) = some id) ∧
    (∀ url : String, hasShape url = false → extractVideoId url = none) ∧
    (∀ (env : TranscriptEnv) (url : String), extractVideoId url = none →
      extractTranscriptT env url = (.error .invalidInput, [])) := by
  refine ⟨?_, ?_, ?_⟩
  · intro id hlen hall
    have hlen' : id.data.length = 11 := hlen
    have hwatch : scan patWatch ("https://www.youtube.com/watch?v=" ++ id).data
        = some id.data := by
      rw [String.data_append,
        show "https://www.youtube.com/watch?v=".data = "https://www.".data ++ patWatch
          by decide,
        List.append_assoc, scan_append_none (by decide),
        scan_at_start (by decide) hlen' hall]
    have hb1 : scan patWatch ("https://youtu.be/" ++ id).data = none := by
      rw [String.data_append, scan_append_none (by decide)]
      exact scan_short (by rw [hlen']; decide)
    have hb2 : scan patBe ("https://youtu.be/" ++ id).data = some id.data := by
      rw [String.data_append,
        show "https://youtu.be/".data = "https://".data ++ patBe by decide,
        List.append_assoc, scan_append_none (by decide),
        scan_at_start (by decide) hlen' hall]
    have he1 : scan patWatch ("https://www.youtube.com/embed/" ++ id).data = none := by
      rw [String.data_append, scan_append_none (by decide)]
      exact scan_short (by rw [hlen']; decide)
    have he2 : scan patBe ("https://www.youtube.com/embed/" ++ id).data = none := by
      rw [String.data_append, scan_append_none (by decide)]
      exact scan_idchar_none (b := '.') (by decide) (by decide) hall
    have he3 : scan patEmbed ("https://www.youtube.com/embed/" ++ id).data
        = some id.data := by
      rw [String.data_append,
        show "https://www.youtube.com/embed/".data = "https://www.".data ++ patEmbed
          by decide,
        List.append_assoc, scan_append_none (by decide),
        scan_at_start (by decide) hlen' hall]
    have hs1 : scan patWatch ("https://www.youtube.com/shorts/" ++ id).data = none := by
      rw [String.data_append, scan_append_none (by decide)]
      exact scan_short (by rw [hlen']; decide)
    have hs2 : scan patBe ("https://www.youtube.com/shorts/" ++ id).data = none := by
      rw [String.data_append, scan_append_none (by decide)]
      exact scan_idchar_none (b := '.') (by decide) (by decide) hall
    have hs3 : scan patEmbed ("https://www.youtube.com/shorts/" ++ id).data = none := by
      rw [String.data_append, scan_append_none (by decide)]
      exact scan_short (by rw [hlen']; decide)
    have hs4 : scan patShorts ("https://www.youtube.com/shorts/" ++ id).data
        = some id.data := by
      rw [String.data_append,
        show "https://www.youtube.com/shorts/".data = "https://www.".data ++ patShorts
          by decide,
        List.append_assoc, scan_append_none (by decide),
        scan_at_start (by decide) hlen' hall]
    refine ⟨?_, ?_, ?_, ?_⟩
    · unfold extractVideoId
      rw [hwatch]
    · unfold extractVideoId
      rw [hb1, hb2]
    · unfold extractVideoId
      rw [he1, he2, he3]
    · unfold extractVideoId
      rw [hs1, hs2, hs3, hs4]
  · intro url hns
    have hns4 : shapeMatch patWatch url.data = false ∧ shapeMatch patBe url.data = false ∧
        shapeMatch patEmbed url.data = false ∧ shapeMatch patShorts url.data = false := by
      unfold hasShape at hns
      simp only [Bool.or_eq_false_iff] at hns
      exact ⟨hns.1.1.1, hns.1.1.2, hns.1.2, hns.2⟩
    unfold extractVideoId
    rw [(scan_eq_none_iff _ _).mpr hns4.1, (scan_eq_none_iff _ _).mpr hns4.2.1,
      (scan_eq_none_iff _ _).mpr hns4.2.2.1, (scan_eq_none_iff _ _).mpr hns4.2.2.2]
  · intro env url h
    unfold extractTranscriptT
    rw [h]

/-- Witness for C2: a concrete id in each direction. -/
theorem claim_C2_witness :
    extractVideoId ("https://www.youtube.com/watch?v=" ++ "dQw4w9WgXcQ")
      = some "dQw4w9WgXcQ" ∧
    extractVideoId "https://example.com/page" = none ∧
    extractTranscriptT {} "not a url" = (.error .invalidInput, []) := by
  refine ⟨(claim_C2.1 "dQw4w9WgXcQ" (by decide) (by decide)).1,
    claim_C2.2.1 "https://example.com/page" (by decide),
    claim_C2.2.2 {} "not a url" (claim_C2.2.1 "not a url" (by decide))⟩

instance exceptDecEq {ε α : Type} [DecidableEq ε] [DecidableEq α] :
    DecidableEq (Except ε α)
  | .ok a, .ok b =>
    if h : a = b then isTrue (by rw [h])
    else isFalse (by intro hc; cases hc; exact h rfl)
  | .ok _, .error _ => isFalse (fun h => Except.noConfusion h)
  | .error _, .ok _ => isFalse (fun h => Except.noConfusion h)
  | .error e, .error f =>
    if h : e = f then isTrue (by rw [h])
    else isFalse (by intro hc; cases hc; exact h rfl)

theorem librarySource_length {env : TranscriptEnv} {t : String}
    (h : librarySource env = some t) : t.length > 20 := by
  rw [librarySource.eq_def] at h
  cases henv : env.library with
  | none => rw [henv] at h; exact Option.noConfusion h
  | some segs =>
    rw [henv] at h
    dsimp only at h
    generalize cleanTranscript (String.intercalate " " segs) = ct at h
    by_cases h0 : segs.length > 0
    · rw [if_pos h0] at h
      by_cases h20 : ct.length > 20
      · rw [if_pos h20] at h
        injection h with h'
        exact h' ▸ h20
      · rw [if_neg h20] at h; exact Option.noConfusion h
    · rw [if_neg h0] at h; exact Option.noConfusion h

theorem vtdSource_length {env : TranscriptEnv} {t : String}
    (h : vtdSource env = some t) : t.length > 20 := by
  rw [vtdSource.eq_def] at h
  cases henv : env.vtd with
  | none => rw [henv] at h; exact Option.noConfusion h
  | some out =>
    rw [henv] at h
    dsimp only at h
    generalize trimJs out = tr at h
    by_cases hc : tr ≠ "" ∧ tr.length > 20
    · rw [if_pos hc] at h
      injection h with h'
      exact h' ▸ hc.2
    · rw [if_neg hc] at h; exact Option.noConfusion h

/-- Environment of the C1 counterexample: sources (a) and (b) fail, source
(c) resolves with a 9-character transcript field, source (d) would resolve
with a long transcript. -/
def c1Env : TranscriptEnv :=
  { library := none
    vtd := none
    api1 := some { transcript := "too short", text := "" }
    api2 := some (some (.str "a perfectly long transcript, well over twenty characters")) }

/-- **C1, counterexample.** The chain does *not* always stop at the first
source producing text longer than 20 characters: with (a) and (b) failing,
(c) returning 9 characters and (d) holding long text, `extractTranscript`
returns the 9-character text from (c) and never invokes (d). -/
theorem claim_C1_counterexample :
    extractTranscriptT c1Env "https://youtu.be/dQw4w9WgXcQ"
      = (.ok "too short", [.library, .vtd, .api1]) ∧
    "too short".length ≤ 20 ∧
    api2Source c1Env
      = some "a perfectly long transcript, well over twenty characters" := by
  refine ⟨by decide, by decide, by decide⟩

/-- **C1, amended.** For every valid URL, the instrumented chain invokes the
sources in the fixed priority order (a) library, (b) command-line tool,
(c) first web API, (d) second web API, each later source exactly when every
earlier one produced nothing acceptable — where "acceptable" is text longer
than 20 characters for (a) (after cleaning) and (b), but any truthy text for
(c) and (d) — and returns the first acceptable text, raising
`NoTranscriptAvailable` only when all four fail.  In particular, if (a)
yields more than 20 characters of cleaned text, (b)–(d) are never invoked. -/
theorem claim_C1_amended (env : TranscriptEnv) (url : String)
    (hurl : extractVideoId url ≠ none) :
    (Source.library ∈ (extractTranscriptT env url).2) ∧
    (Source.vtd ∈ (extractTranscriptT env url).2 ↔ librarySource env = none) ∧
    (Source.api1 ∈ (extractTranscriptT env url).2 ↔
      librarySource env = none ∧ vtdSource env = none) ∧
    (Source.api2 ∈ (extractTranscriptT env url).2 ↔
      librarySource env = none ∧ vtdSource env = none ∧ api1Source env = none) ∧
    (∀ t, librarySource env = some t →
      extractTranscriptT env url = (.ok t, [.library]) ∧ t.length > 20) ∧
    (librarySource env = none → ∀ t, vtdSource env = some t →
      extractTranscriptT env url = (.ok t, [.library, .vtd]) ∧ t.length > 20) ∧
    (librarySource env = none → vtdSource env = none →
      ∀ t, api1Source env = some t →
      extractTranscriptT env url = (.ok t, [.library, .vtd, .api1])) ∧
    (librarySource env = none → vtdSource env = none → api1Source env = none →
      ∀ t, api2Source env = some t →
      extractTranscriptT env url = (.ok t, [.library, .vtd, .api1, .api2])) ∧
    ((extractTranscriptT env url).1 = .error .noTranscriptAvailable ↔
      librarySource env = none ∧ vtdSource env = none ∧
      api1Source env = none ∧ api2Source env = none) := by
  obtain ⟨vid, hvid⟩ : ∃ v, extractVideoId url = some v := by
    cases h : extractVideoId url with
    | none => exact absurd h hurl
    | some v => exact ⟨v, rfl⟩
  unfold extractTranscriptT
  rw [hvid]
  rcases hl : librarySource env with _ | t1
  · rcases hv : vtdSource env with _ | t2
    · rcases h1 : api1Source env with _ | t3
      · rcases h2 : api2Source env with _ | t4
        · simp
        · simp
      · simp
    · refine ⟨by simp, by simp, by simp, by simp, by simp, ?_, by simp, by simp, by simp⟩
      intro _ t ht
      injection ht with ht'
      exact ⟨by rw [ht'], ht' ▸ vtdSource_length hv⟩
  · refine ⟨by simp, ?_, ?_, ?_, ?_, by simp [hl], by simp [hl], by simp [hl], ?_⟩
    · simp [hl]
    · simp [hl]
    · simp [hl]
    · intro t ht
      injection ht with ht'
      exact ⟨by rw [ht'], ht' ▸ librarySource_length hl⟩
    · simp [hl]

/-- Witness for the amended C1: source (a) succeeds with long cleaned text
and the later sources are never invoked. -/
theorem claim_C1_witness :
    extractTranscriptT { library := some ["this is a fairly long caption text"] }
      "https://youtu.be/dQw4w9WgXcQ"
      = (.ok "this is a fairly long caption text", [Source.library]) :=
  ((claim_C1_amended _ _ (by decide)).2.2.2.2.1 _ (by decide)).1

theorem extractTranscriptT_lib {env : TranscriptEnv} {url : String} {vid t : String}
    (hvid : extractVideoId url = some vid) (hl : librarySource env = some t) :
    extractTranscriptT env url = (.ok t, [.library]) := by
  unfold extractTranscriptT
  rw [hvid, hl]

theorem extractTranscriptT_vtd {env : TranscriptEnv} {url : String} {vid t : String}
    (hvid : extractVideoId url = some vid) (hl : librarySource env = none)
    (hv : vtdSource env = some t) :
    extractTranscriptT env url = (.ok t, [.library, .vtd]) := by
  unfold extractTranscriptT
  rw [hvid, hl, hv]

theorem extractTranscriptT_api1 {env : TranscriptEnv} {url : String} {vid t : String}
    (hvid : extractVideoId url = some vid) (hl : librarySource env = none)
    (hv : vtdSource env = none) (h1 : api1Source env = some t) :
    extractTranscriptT env url = (.ok t, [.library, .vtd, .api1]) := by
  unfold extractTranscriptT
  rw [hvid, hl, hv, h1]

theorem extractTranscriptT_api2 {env : TranscriptEnv} {url : String} {vid t : String}
    (hvid : extractVideoId url = some vid) (hl : librarySource env = none)
    (hv : vtdSource env = none) (h1 : api1Source env = none)
    (h2 : api2Source env = some t) :
    extractTranscriptT env url = (.ok t, [.library, .vtd, .api1, .api2]) := by
  unfold extractTranscriptT
  rw [hvid, hl, hv, h1, h2]

theorem vtd_invoked {env : TranscriptEnv} {url : String} {vid : String}
    (hvid : extractVideoId url = some vid) (hl : librarySource env = none) :
    Source.vtd ∈ (extractTranscriptT env url).2 := by
  unfold extractTranscriptT
  rw [hvid, hl]
  cases hv : vtdSource env with
  | some t => simp
  | none =>
    cases h1 : api1Source env with
    | some t => simp
    | none =>
      cases h2 : api2Source env with
      | some t => simp
      | none => simp

/-- **C9.** Library-sourced transcripts (source (a)) are cleaned — HTML
entities `&amp; &#39; &quot; &lt; &gt;` decoded, music notes and
`[♪♪♪]`/`[Music]` markers removed, whitespace normalized — before the
length-greater-than-20 check is applied; transcripts from fallback sources
(b)–(d) are returned without this cleaning ((b) is only trimmed, (c) and
(d) are returned verbatim). -/
theorem claim_C9 (env : TranscriptEnv) (url : String)
    (hurl : extractVideoId url ≠ none) :
    (∀ segs, env.library = some segs → segs ≠ [] →
      (cleanTranscript (String.intercalate " " segs)).length > 20 →
      extractTranscriptT env url
        = (.ok (cleanTranscript (String.intercalate " " segs)), [.library])) ∧
    (∀ segs, env.library = some segs →
      (cleanTranscript (String.intercalate " " segs)).length ≤ 20 →
      Source.vtd ∈ (extractTranscriptT env url).2) ∧
    (librarySource env = none → ∀ out, env.vtd = some out →
      trimJs out ≠ "" → (trimJs out).length > 20 →
      extractTranscript env url = .ok (trimJs out)) ∧
    (librarySource env = none → vtdSource env = none → ∀ d, env.api1 = some d →
      d.transcript ≠ "" → extractTranscript env url = .ok d.transcript) ∧
    (librarySource env = none → vtdSource env = none → api1Source env = none →
      ∀ s, env.api2 = some (some (.str s)) → s ≠ "" →
      extractTranscript env url = .ok s) := by
  obtain ⟨vid, hvid⟩ : ∃ v, extractVideoId url = some v := by
    cases h : extractVideoId url with
    | none => exact absurd h hurl
    | some v => exact ⟨v, rfl⟩
  refine ⟨?_, ?_, ?_, ?_, ?_⟩
  · intro segs hsegs hne h20
    have hl : librarySource env = some (cleanTranscript (String.intercalate " " segs)) := by
      rw [librarySource.eq_def, hsegs]
      dsimp only
      rw [if_pos (by
        cases segs with
        | nil => exact absurd rfl hne
        | cons a l => simp), if_pos h20]
    exact extractTranscriptT_lib hvid hl
  · intro segs hsegs h20
    have hl : librarySource env = none := by
      rw [librarySource.eq_def, hsegs]
      dsimp only
      by_cases h0 : segs.length > 0
      · rw [if_pos h0, if_neg (by omega)]
      · rw [if_neg h0]
    exact vtd_invoked hvid hl
  · intro hl out hout hne h20
    have hv : vtdSource env = some (trimJs out) := by
      rw [vtdSource.eq_def, hout]
      dsimp only
      rw [if_pos ⟨hne, h20⟩]
    unfold extractTranscript
    rw [extractTranscriptT_vtd hvid hl hv]
  · intro hl hv d hd hne
    have h1 : api1Source env = some d.transcript := by
      rw [api1Source.eq_def, hd]
      dsimp only
      rw [if_pos hne]
    unfold extractTranscript
    rw [extractTranscriptT_api1 hvid hl hv h1]
  · intro hl hv h1 s hs hne
    have h2 : api2Source env = some s := by
      rw [api2Source.eq_def, hs]
      dsimp only
      rw [if_pos hne]
    unfold extractTranscript
    rw [extractTranscriptT_api2 hvid hl hv h1 h2]

/-- Witness for C9: a library transcript containing every decoded entity and
every removed artifact, cleaned before being returned. -/
theorem claim_C9_witness :
    extractTranscriptT
      { library := some ["Hello &amp; welcome to &#39;the&#39; show",
          "&quot;really&quot; &lt;cool&gt; ♪ [Music] [♪♪♪] yes"] }
      "https://youtu.be/dQw4w9WgXcQ"
      = (.ok "Hello & welcome to 'the' show \"really\" <cool> yes",
         [Source.library]) := by
  have h := (claim_C9
      { library := some ["Hello &amp; welcome to &#39;the&#39; show",
          "&quot;really&quot; &lt;cool&gt; ♪ [Music] [♪♪♪] yes"] }
      "https://youtu.be/dQw4w9WgXcQ" (by decide)).1
      ["Hello &amp; welcome to &#39;the&#39; show",
       "&quot;really&quot; &lt;cool&gt; ♪ [Music] [♪♪♪] yes"] rfl
      (by decide) (by decide)
  rw [h]
  decide

/-- **C5.** `analyzeVideo` raises `NoContentAvailable` if and only if both
the resolved transcript and the fetched metadata title are empty; if either
is non-empty it proceeds, and completes with the parsed analysis whenever
the completion parses. -/
theorem claim_C5 (env : AnalyzeEnv) (url : String) :
    (analyzeVideo env url = .error .noContentAvailable ↔
      resolvedTranscript env url = "" ∧ env.metadata.title = "") ∧
    (¬ (resolvedTranscript env url = "" ∧ env.metadata.title = "") →
      ∀ a, env.parseAnalysis (cleanCompletion env.completionResponse) = some a →
        analyzeVideo env url = .ok a) := by
  unfold analyzeVideo
  by_cases hc : resolvedTranscript env url = "" ∧ env.metadata.title = ""
  · rw [if_pos hc]
    exact ⟨by simp [hc], fun hn => absurd hc hn⟩
  · rw [if_neg hc]
    cases hp : env.parseAnalysis (cleanCompletion env.completionResponse) with
    | some a =>
      refine ⟨by simp [hc], ?_⟩
      intro _ b hb
      injection hb with hb'
      rw [hb']
    | none =>
      refine ⟨by simp [hc], ?_⟩
      intro _ b hb
      exact Option.noConfusion hb

/-- Witness for C5: a run with an empty transcript but non-empty title
completes with the parsed analysis, and a run with both empty raises
`NoContentAvailable`. -/
theorem claim_C5_witness :
    analyzeVideo
      { tenv := {}
        metadata := { title := "My Video" }
        completionResponse := "ok"
        parseAnalysis := fun s =>
          if s = "ok" then
            some { title := "My Video", topic := "t", hook := "h", mood := "m",
                   keyMoments := [], visualElements := [], textSuggestions := [],
                   colorPalette := [], targetEmotion := "e", thumbnailConcepts := [] }
          else none }
      "https://youtu.be/dQw4w9WgXcQ"
      = .ok { title := "My Video", topic := "t", hook := "h", mood := "m",
              keyMoments := [], visualElements := [], textSuggestions := [],
              colorPalette := [], targetEmotion := "e", thumbnailConcepts := [] } ∧
    analyzeVideo
      { tenv := {}
        metadata := {}
        completionResponse := "ok"
        parseAnalysis := fun _ => none }
      "https://youtu.be/dQw4w9WgXcQ"
      = .error .noContentAvailable := by
  constructor
  · exact (claim_C5 _ "https://youtu.be/dQw4w9WgXcQ").2 (by decide) _ (by decide)
  · exact (claim_C5 _ "https://youtu.be/dQw4w9WgXcQ").1.mpr (by decide)

/-- **C7.** `analyzeFace` with an empty image list raises `InvalidInput`
before any network call; the face-analyze route answers 400 without calling
the analyzer when `faceImages` is missing, not an array, empty, or longer
than 5. -/
theorem claim_C7 (env : FaceEnv) :
    (∀ images : List String, images = [] →
      analyzeFaceT images env = (.error .invalidInput, false)) ∧
    faceAnalyzeRoute .missing env = (400, false) ∧
    faceAnalyzeRoute .notArray env = (400, false) ∧
    faceAnalyzeRoute (.arr []) env = (400, false) ∧
    (∀ l : List String, l.length > 5 →
      faceAnalyzeRoute (.arr l) env = (400, false)) := by
  refine ⟨?_, rfl, rfl, rfl, ?_⟩
  · intro images him
    subst him
    rfl
  · intro l hl
    unfold faceAnalyzeRoute
    dsimp only
    rw [if_neg (by omega), if_pos hl]

/-- Witness for C7: zero images and six images at concrete values. -/
theorem claim_C7_witness :
    analyzeFaceT [] { completionResponse := "", parseFace := fun _ => none }
      = (.error .invalidInput, false) ∧
    faceAnalyzeRoute (.arr ["a", "b", "c", "d", "e", "f"])
      { completionResponse := "", parseFace := fun _ => none } = (400, false) := by
  constructor
  · exact (claim_C7 _).1 [] rfl
  · exact (claim_C7 _).2.2.2.2 ["a", "b", "c", "d", "e", "f"] (by decide)

/-- **C8.** When the fence-stripped completion fails to parse as JSON,
`analyzeFace` does not raise: it returns the raw trimmed response as the
description, an empty feature list, "unknown" age range and gender
presentation, and the input photo count. -/
theorem claim_C8 (images : List String) (env : FaceEnv)
    (hne : images ≠ [])
    (hparse : env.parseFace (cleanFaceCompletion env.completionResponse) = none) :
    analyzeFaceT images env
      = (.ok { description := trimJs env.completionResponse
               keyFeatures := []
               ageRange := "unknown"
               genderPresentation := "unknown"
               photoCount := images.length }, true) := by
  unfold analyzeFaceT
  rw [if_neg (by
    intro h0
    exact hne (List.length_eq_zero.mp h0)), hparse]

/-- Witness for C8: a non-JSON completion degrades to the raw trimmed text. -/
theorem claim_C8_witness :
    analyzeFaceT ["photo"]
      { completionResponse := "  plain text, not JSON  ", parseFace := fun _ => none }
      = (.ok { description := "plain text, not JSON", keyFeatures := [],
               ageRange := "unknown", genderPresentation := "unknown",
               photoCount := 1 }, true) := by
  have h := claim_C8 ["photo"]
    { completionResponse := "  plain text, not JSON  ", parseFace := fun _ => none }
    (by simp) rfl
  rw [h]
  decide

/-- The first entry of the side-channel `images` array carries a truthy
url — exactly the condition Method 1 of `generateImage` checks. -/
def imagesPayload (message : RMessage) : Bool :=
  match message.images with
  | some (img :: _) =>
    match img.image_url with
    | some u => u != ""
    | none => false
  | _ => false

/-- Some inline content part carries a truthy image url — exactly the
condition Method 2 of `generateImage` checks. -/
def contentPayload (message : RMessage) : Bool :=
  match message.content with
  | .parts l => l.any isImagePart
  | _ => false

def hasImagePayload (message : RMessage) : Bool :=
  imagesPayload message || contentPayload message

theorem imageFromContent_error {message : RMessage}
    (h : contentPayload message = false) :
    imageFromContent message = .error .noImageReturned := by
  unfold contentPayload at h
  unfold imageFromContent
  cases hc : message.content with
  | str s => rfl
  | absent => rfl
  | parts l =>
    rw [hc] at h
    dsimp only at h
    have hnone : l.find? isImagePart = none := by
      rw [List.find?_eq_none]
      intro x hx hpx
      have : l.any isImagePart = true := List.any_eq_true.mpr ⟨x, hx, hpx⟩
      rw [h] at this
      exact Bool.noConfusion this
    dsimp only
    rw [hnone]

theorem parseImageMessage_eq_content {message : RMessage}
    (h : imagesPayload message = false) :
    parseImageMessage message = imageFromContent message := by
  unfold imagesPayload at h
  unfold parseImageMessage
  cases hi : message.images with
  | none => rfl
  | some imgs =>
    cases imgs with
    | nil => rfl
    | cons img rest =>
      rw [hi] at h
      dsimp only at h
      cases hu : img.image_url with
      | none => dsimp only; rw [hu]
      | some u =>
        dsimp only
        rw [hu]
        dsimp only
        rw [hu] at h
        dsimp only at h
        rw [if_neg (by
          intro hne
          have : (u != "") = true := by
            rw [bne_iff_ne]
            exact hne
          rw [this] at h
          exact Bool.noConfusion h)]

theorem imageFromContent_ok {message : RMessage} (h : contentPayload message = true) :
    ∃ pair, imageFromContent message = .ok pair := by
  unfold contentPayload at h
  cases hc : message.content with
  | str s => rw [hc] at h; exact absurd h (by simp)
  | absent => rw [hc] at h; exact absurd h (by simp)
  | parts l =>
    rw [hc] at h
    dsimp only at h
    have hsome : (l.find? isImagePart).isSome := by
      rw [List.find?_isSome]
      rw [List.any_eq_true] at h
      exact h
    obtain ⟨p, hp⟩ := Option.isSome_iff_exists.mp hsome
    have hip : isImagePart p = true := List.find?_some hp
    unfold isImagePart at hip
    rw [Bool.and_eq_true] at hip
    cases hu : p.image_url with
    | none =>
      have h2 := hip.2
      rw [hu] at h2
      exact absurd h2 (by simp)
    | some u =>
      refine ⟨(stripDataUrl u,
        match l.find? (fun q => q.type == "text") with
        | some q => q.text
        | none => none), ?_⟩
      unfold imageFromContent
      rw [hc]
      dsimp only
      rw [hp]
      dsimp only
      rw [hu]

/-- **C3.** `generateImage` normalizes both provider shapes to a single
(image-bytes, optional revised-prompt) pair: whenever either the
side-channel `images` array (first entry, truthy url) or an inline content
part carries an image payload, the result is an `ok` pair; a response with
an `images` entry and no text content yields `revisedPrompt = none` rather
than an error; and when neither shape carries an image payload the call
raises `NoImageReturned`. -/
theorem claim_C3 (message : RMessage) :
    (hasImagePayload message = false →
      parseImageMessage message = .error .noImageReturned) ∧
    (hasImagePayload message = true →
      ∃ pair, parseImageMessage message = .ok pair) ∧
    (∀ (u : String) (rest : List RImage),
      message.images = some ({ image_url := some u } :: rest) → u ≠ "" →
      (contentText message.content = none ∨ contentText message.content = some "") →
      parseImageMessage message = .ok (stripDataUrl u, none)) ∧
    (∀ (data : RData) (ch : RChoice) (rest : List RChoice),
      data.choices = ch :: rest → parseImageResponse data = parseImageMessage ch.message) := by
  refine ⟨?_, ?_, ?_, ?_⟩
  · intro h
    unfold hasImagePayload at h
    rw [Bool.or_eq_false_iff] at h
    rw [parseImageMessage_eq_content h.1]
    exact imageFromContent_error h.2
  · intro h
    unfold hasImagePayload at h
    rcases Bool.or_eq_true_iff.mp h with h1 | h1
    · unfold imagesPayload at h1
      cases hi : message.images with
      | none => rw [hi] at h1; exact absurd h1 (by simp)
      | some imgs =>
        cases imgs with
        | nil => rw [hi] at h1; exact absurd h1 (by simp)
        | cons img rest =>
          rw [hi] at h1
          dsimp only at h1
          cases hu : img.image_url with
          | none => rw [hu] at h1; exact absurd h1 (by simp)
          | some u =>
            rw [hu] at h1
            dsimp only at h1
            refine ⟨(stripDataUrl u,
              match contentText message.content with
              | some t => if t = "" then none else some t
              | none => none), ?_⟩
            unfold parseImageMessage
            rw [hi]
            dsimp only
            rw [hu]
            dsimp only
            rw [if_pos (bne_iff_ne.mp h1)]
    · obtain ⟨pair, hpair⟩ := imageFromContent_ok h1
      by_cases h2 : imagesPayload message = true
      · unfold imagesPayload at h2
        cases hi : message.images with
        | none => rw [hi] at h2; exact absurd h2 (by simp)
        | some imgs =>
          cases imgs with
          | nil => rw [hi] at h2; exact absurd h2 (by simp)
          | cons img rest =>
            rw [hi] at h2
            dsimp only at h2
            cases hu : img.image_url with
            | none => rw [hu] at h2; exact absurd h2 (by simp)
            | some u =>
              rw [hu] at h2
              dsimp only at h2
              refine ⟨(stripDataUrl u,
                match contentText message.content with
                | some t => if t = "" then none else some t
                | none => none), ?_⟩
              unfold parseImageMessage
              rw [hi]
              dsimp only
              rw [hu]
              dsimp only
              rw [if_pos (bne_iff_ne.mp h2)]
      · rw [parseImageMessage_eq_content (Bool.not_eq_true _ ▸ h2)]
        exact ⟨pair, hpair⟩
  · intro u rest him hu htc
    unfold parseImageMessage
    rw [him]
    dsimp only
    rw [if_pos hu]
    rcases htc with h | h <;> rw [h]
    simp
  · intro data ch rest hch
    unfold parseImageResponse
    rw [hch]

/-- Witness for C3: a side-channel image with no text content normalizes to
the stripped bytes and an undefined revised prompt. -/
theorem claim_C3_witness :
    parseImageMessage
      { content := .absent,
        images := some [{ image_url := some "data:image/png;base64,AAAA" }] }
      = .ok ("AAAA", none) := by
  have h := (claim_C3
      { content := .absent,
        images := some [{ image_url := some "data:image/png;base64,AAAA" }] }).2.2.1
      "data:image/png;base64,AAAA" [] rfl (by decide) (Or.inl rfl)
  rw [h]
  decide

/-- The concepts actually attempted: the first
`min(effectiveCount, available)` concepts, with their loop indices. -/
def attemptedConcepts (analysis : VideoAnalysis) (options : GenOptions) :
    List (Nat × ThumbnailConcept) :=
  (analysis.thumbnailConcepts.take
    (min (effectiveCount options.count) analysis.thumbnailConcepts.length)).enum

/-- Declarative result list: one thumbnail per successful attempt, in
concept order, failures omitted. -/
def successfulThumbnails (now : Nat) (analysis : VideoAnalysis)
    (options : GenOptions) (gen : GenOracle) : List GeneratedThumbnail :=
  (attemptedConcepts analysis options).filterMap
    (fun ic => (gen ic.1).map (fun p => mkThumbnail now ic.1 ic.2 p.1 p.2))

theorem genLoop_eq_filterMap (now : Nat) (gen : GenOracle)
    (l : List (Nat × ThumbnailConcept)) :
    genLoop now gen l = l.filterMap
      (fun ic => (gen ic.1).map (fun p => mkThumbnail now ic.1 ic.2 p.1 p.2)) := by
  induction l with
  | nil => rfl
  | cons ic rest ih =>
    obtain ⟨i, c⟩ := ic
    rw [List.filterMap_cons]
    cases hg : gen i with
    | none =>
      unfold genLoop
      rw [hg]
      dsimp only
      exact ih
    | some p =>
      obtain ⟨img, rp⟩ := p
      unfold genLoop
      rw [hg]
      dsimp only [Option.map]
      rw [ih]
      rfl

theorem ite_isEmpty {α β : Type} [DecidableEq α] (l : List α) (a b : β) :
    (if l.isEmpty then a else b) = if l = [] then a else b := by
  cases l <;> simp

theorem generateThumbnailsT_eq (now : Nat) (analysis : VideoAnalysis)
    (options : GenOptions) (gen : GenOracle) :
    generateThumbnailsT now analysis options gen
      = (if successfulThumbnails now analysis options gen = []
           then .error .noThumbnailsGenerated
           else .ok (successfulThumbnails now analysis options gen),
         min (effectiveCount options.count) analysis.thumbnailConcepts.length) := by
  unfold generateThumbnailsT successfulThumbnails attemptedConcepts
  dsimp only
  rw [genLoop_eq_filterMap, ite_isEmpty, List.length_take]
  congr 1
  omega

/-- **C4.** `generateThumbnails` returns exactly the successful items in
concept order (each failed item omitted) whenever at least one attempt
succeeds, and raises `NoThumbnailsGenerated` if and only if every attempted
generation fails. -/
theorem claim_C4 (now : Nat) (analysis : VideoAnalysis) (options : GenOptions)
    (gen : GenOracle) :
    (successfulThumbnails now analysis options gen ≠ [] →
      generateThumbnails now analysis options gen
        = .ok (successfulThumbnails now analysis options gen)) ∧
    (generateThumbnails now analysis options gen = .error .noThumbnailsGenerated ↔
      successfulThumbnails now analysis options gen = []) ∧
    (∀ l, generateThumbnails now analysis options gen = .ok l →
      l = successfulThumbnails now analysis options gen) ∧
    (successfulThumbnails now analysis options gen = [] ↔
      ∀ ic ∈ attemptedConcepts analysis options, gen ic.1 = none) := by
  have hempty : successfulThumbnails now analysis options gen = [] ↔
      ∀ ic ∈ attemptedConcepts analysis options, gen ic.1 = none := by
    unfold successfulThumbnails
    rw [List.filterMap_eq_nil_iff]
    constructor
    · intro h ic hic
      have := h ic hic
      exact Option.map_eq_none'.mp this
    · intro h ic hic
      rw [h ic hic]
      rfl
  unfold generateThumbnails
  rw [generateThumbnailsT_eq]
  by_cases hs : successfulThumbnails now analysis options gen = []
  · rw [if_pos hs]
    exact ⟨fun hne => absurd hs hne, by simp [hs], fun l hl => Except.noConfusion hl,
      hempty⟩
  · rw [if_neg hs]
    refine ⟨fun _ => rfl, by simp [hs], ?_, hempty⟩
    intro l hl
    injection hl with hl'
    rw [hl']

/-- Concrete four-concept analysis for the C4 witness. -/
def c4Analysis : VideoAnalysis :=
  { title := "t", topic := "t", hook := "h", mood := "m", keyMoments := [],
    visualElements := [], textSuggestions := [], colorPalette := ["#fff"],
    targetEmotion := "e",
    thumbnailConcepts :=
      [{ description := "c0", textOverlay := "A", mood := "m", visualStyle := "v",
         faceExpression := "f" },
       { description := "c1", textOverlay := "B", mood := "m", visualStyle := "v",
         faceExpression := "f" },
       { description := "c2", textOverlay := "C", mood := "m", visualStyle := "v",
         faceExpression := "f" },
       { description := "c3", textOverlay := "D", mood := "m", visualStyle := "v",
         faceExpression := "f" }] }

/-- Witness for C4: one failure among four concepts yields exactly the three
successful thumbnails, in order. -/
theorem claim_C4_witness :
    generateThumbnails 0 c4Analysis {}
        (fun i => if i = 2 then none else some ("img", none))
      = .ok (successfulThumbnails 0 c4Analysis {}
          (fun i => if i = 2 then none else some ("img", none))) ∧
    (successfulThumbnails 0 c4Analysis {}
        (fun i => if i = 2 then none else some ("img", none))).length = 3 := by
  constructor
  · exact (claim_C4 0 c4Analysis {} _).1 (by decide)
  · decide

/-- Single concept and one-concept analysis for the C6 counterexample. -/
def c6Concept : ThumbnailConcept :=
  { description := "c0", textOverlay := "", mood := "m", visualStyle := "v",
    faceExpression := "f" }

def c6Analysis : VideoAnalysis :=
  { title := "t", topic := "t", hook := "h", mood := "m", keyMoments := [],
    visualElements := [], textSuggestions := [], colorPalette := [],
    targetEmotion := "e", thumbnailConcepts := [c6Concept] }

/-- **C6, counterexample.** The bound `min(count, #concepts)` fails for a
requested count of 0: with one available concept and `count = 0`, one
generation is attempted and one thumbnail returned, exceeding
`min 0 1 = 0`. -/
theorem claim_C6_counterexample :
    (generateThumbnailsT 0 c6Analysis { count := some 0 }
      (fun _ => some ("img", none))).2 = 1 ∧
    generateThumbnails 0 c6Analysis { count := some 0 }
      (fun _ => some ("img", none)) = .ok [mkThumbnail 0 0 c6Concept "img" none] ∧
    ¬ (1 ≤ min 0 1) := by
  refine ⟨by decide, by decide, by decide⟩

/-- **C6, amended.** For every positive requested count `n`, exactly
`min n #concepts` generations are attempted and at most that many
thumbnails are returned; with the count omitted the default 4 applies, so
at most `min 4 #concepts` are attempted and returned.  (A requested count
of 0 falls back to the default 4; see C10.) -/
theorem claim_C6_amended (now : Nat) (analysis : VideoAnalysis) (gen : GenOracle) :
    (∀ (options : GenOptions) (n : Nat), options.count = some n → 1 ≤ n →
      (generateThumbnailsT now analysis options gen).2
          = min n analysis.thumbnailConcepts.length ∧
      ∀ l, generateThumbnails now analysis options gen = .ok l →
        l.length ≤ min n analysis.thumbnailConcepts.length) ∧
    (∀ options : GenOptions, options.count = none →
      (generateThumbnailsT now analysis options gen).2
          = min 4 analysis.thumbnailConcepts.length ∧
      ∀ l, generateThumbnails now analysis options gen = .ok l →
        l.length ≤ min 4 analysis.thumbnailConcepts.length) := by
  have key : ∀ options : GenOptions,
      (generateThumbnailsT now analysis options gen).2
          = min (effectiveCount options.count) analysis.thumbnailConcepts.length ∧
      ∀ l, generateThumbnails now analysis options gen = .ok l →
        l.length ≤ min (effectiveCount options.count) analysis.thumbnailConcepts.length := by
    intro options
    constructor
    · rw [generateThumbnailsT_eq]
    · intro l hl
      unfold generateThumbnails at hl
      rw [generateThumbnailsT_eq] at hl
      dsimp only at hl
      split at hl
      · exact Except.noConfusion hl
      · injection hl with hl'
        rw [← hl']
        calc (successfulThumbnails now analysis options gen).length
            ≤ (attemptedConcepts analysis options).length :=
              List.length_filterMap_le _ _
          _ = min (effectiveCount options.count) analysis.thumbnailConcepts.length := by
              unfold attemptedConcepts
              rw [List.enum_length, List.length_take]
              omega
  constructor
  · intro options n hn h1
    have heff : effectiveCount options.count = n := by
      rw [effectiveCount.eq_def, hn]
      dsimp only
      rw [if_neg (by omega)]
    have := key options
    rw [heff] at this
    exact this
  · intro options hn
    have heff : effectiveCount options.count = 4 := by
      rw [effectiveCount.eq_def, hn]
    have := key options
    rw [heff] at this
    exact this

/-- Witness for the amended C6: requesting 6 thumbnails against 4 concepts
attempts exactly 4. -/
theorem claim_C6_witness :
    (generateThumbnailsT 0 c4Analysis { count := some 6 }
      (fun _ => some ("img", none))).2 = 4 := by
  have h := ((claim_C6_amended 0 c4Analysis (fun _ => some ("img", none))).1
    { count := some 6 } 6 rfl (by omega)).1
  rw [h]
  decide

/-- **C10.** A requested count of 0 behaves exactly as an omitted count: the
default of 4 applies (capped to the available concepts), so `count = 0`
yields neither an empty result nor an error beyond what the default run
produces. -/
theorem claim_C10 (now : Nat) (analysis : VideoAnalysis) (gen : GenOracle)
    (faceImage faceDescr model : Option String) :
    generateThumbnailsT now analysis
        { faceImageBase64 := faceImage, faceDescription := faceDescr,
          model := model, count := some 0 } gen
      = generateThumbnailsT now analysis
        { faceImageBase64 := faceImage, faceDescription := faceDescr,
          model := model, count := none } gen ∧
    effectiveCount (some 0) = effectiveCount none := by
  exact ⟨rfl, rfl⟩

end ThumbForge
